import Mathlib

/-!
# Email tracker: dispatch loop and tracking-record lifecycle

A shallow embedding of `main.go`.

Modelling conventions
* A Go `string` is a Lean `String`.  Every string the handlers receive comes out of the
  JSON decoder or of the router, and substring search for a non-empty pattern gives the
  same matches on code points as on UTF-8 bytes.
* A Go `map[string]T` is a list of key/value pairs with pairwise distinct keys.  For the
  maps the program builds (`statusMap`, `emailToTemplateMap`) the list order is insertion
  order and is never observed.  For the maps the program ranges over
  (`EmailBody.Parameters` and each parameter set) the list order is the order in which
  `range` visits the entries, which Go leaves unspecified: statements quantify over it.
* A Go `interface{}` that came out of `encoding/json` is a `JVal`.
* A failed type assertion is a run-time panic: the function returns `none`.
* Go `int` and `time.Duration` are 64-bit: arithmetic that can overflow goes through
  `wrapInt64`.
* Everything the code obtains from outside (uuid, clock, whether the store answers,
  whether the transport accepts a message) is handed in as an `Fx` record, one per loop
  iteration or handler call.
-/

namespace EmailTracker

/-! ## Strings -/

/-- Whether `p` is an initial segment of `s`. -/
def startsWith : List Char → List Char → Bool
  | [], _ => true
  | _ :: _, [] => false
  | a :: p, b :: s => decide (a = b) && startsWith p s

/-- Scanning loop of `strings.Replace` for a non-empty `old`: `skip` counts the characters
of the current match that are still to be dropped, `n` the replacements still allowed.
Matches are found left to right and do not overlap. -/
def replaceScan (old new : List Char) : Nat → Nat → List Char → List Char
  | _, _, [] => []
  | skip + 1, n, _ :: cs => replaceScan old new skip n cs
  | 0, 0, c :: cs => c :: cs
  | 0, n + 1, c :: cs =>
    if startsWith old (c :: cs) then new ++ replaceScan old new (old.length - 1) n cs
    else c :: replaceScan old new 0 (n + 1) cs

/-- The case `old == ""` of `strings.Replace`: `new` goes in at the start of the string and
after each character, at most `n` times. -/
def replaceEmpty (new : List Char) : Nat → List Char → List Char
  | 0, s => s
  | _ + 1, [] => new
  | n + 1, c :: cs => new ++ c :: replaceEmpty new n cs

/-- Go `strings.Replace(s, old, new, n)`: the first `n` non-overlapping instances of `old`
replaced by `new`, all of them when `n < 0`. -/
def Replace (s old new : String) (n : Int) : String :=
  if old = new ∨ n = 0 then s
  else
    let limit : Nat := if n < 0 then s.data.length + 1 else n.toNat
    if old.data = [] then ⟨replaceEmpty new.data limit s.data⟩
    else ⟨replaceScan old.data new.data 0 limit s.data⟩

/-- Go `strings.ReplaceAll(s, old, new)`. -/
def ReplaceAll (s old new : String) : String := Replace s old new (-1)

/-! ## Machine integers and `strconv.Atoi` -/

/-- Reduction of an integer to the range of a signed 64-bit word (two's complement). -/
def wrapInt64 (x : Int) : Int := (x + 2 ^ 63) % 2 ^ 64 - 2 ^ 63

/-- Value of a decimal digit, `none` for any other character. -/
def digitVal (c : Char) : Option Nat :=
  if 48 ≤ c.toNat ∧ c.toNat ≤ 57 then some (c.toNat - 48) else none

/-- Accumulating loop over the digits: `none` at the first non-digit. -/
def parseDigits : List Char → Nat → Option Nat
  | [], acc => some acc
  | c :: cs, acc =>
    match digitVal c with
    | none => none
    | some d => parseDigits cs (acc * 10 + d)

/-- Go `strconv.Atoi` on a 64-bit platform: an optional sign followed by one or more decimal
digits, the value within `[-2^63, 2^63 - 1]`.  `none` stands for a non-nil `err` (syntax or
range). -/
def Atoi (s : String) : Option Int :=
  match s.data with
  | [] => none
  | c :: cs =>
    let digits := if c = '-' ∨ c = '+' then cs else c :: cs
    if digits = [] then none
    else
      match parseDigits digits 0 with
      | none => none
      | some un =>
        if c = '-' then (if un ≤ 2 ^ 63 then some (-(un : Int)) else none)
        else (if un < 2 ^ 63 then some (un : Int) else none)

/-! ## Maps -/

/-- A Go `map[string]V`. -/
abbrev GoMap (V : Type) := List (String × V)

/-- Map read `m[k]` with the comma-ok result. -/
def mapGet {V : Type} : GoMap V → String → Option V
  | [], _ => none
  | (k, v) :: rest, key => if k = key then some v else mapGet rest key

/-- Map write `m[k] = v`: overwrites the entry of `k` when there is one. -/
def mapSet {V : Type} : GoMap V → String → V → GoMap V
  | [], key, val => [(key, val)]
  | (k, v) :: rest, key, val =>
    if k = key then (k, val) :: rest else (k, v) :: mapSet rest key val

/-- The keys of a map. -/
def mapKeys {V : Type} (m : GoMap V) : List String := m.map Prod.fst

/-! ## Data model -/

/-- A value of type `interface{}` produced by `encoding/json`. -/
inductive JVal where
  | null
  | bool (b : Bool)
  | num (literal : String)
  | str (s : String)
  | arr (items : List JVal)
  | obj (members : List (String × JVal))

structure Receiver where
  Email : String
  TrackingId : String
  WantToTrack : Bool
  Type_ : String

structure Recipients where
  Receivers : List Receiver
  From : String

structure EmailBody where
  HtmlTemplate : String
  Subject : String
  Parameters : GoMap JVal

structure TrackingObject where
  Email : String
  Count : Int
  LastOpened : Nat
  deriving DecidableEq

structure EmailTrackerRequest where
  Recipients : Recipients
  EmailBody : EmailBody

/-- A message handed to `emailDialer.DialAndSend`: the headers set by `sendEmails`
and the HTML body. -/
structure Message where
  From : String
  Subject : String
  Header : String
  Address : String
  Html : String
  deriving DecidableEq

/-- A key of the store: the value and the expiration argument (nanoseconds) of the `Set`
that wrote it.  With go-redis a non-positive argument gives the key no time-to-live. -/
structure Entry where
  value : String
  expiration : Int
  deriving DecidableEq

/-- The key-value store at one instant; expired keys are absent. -/
abbrev Store := GoMap Entry

/-- Process configuration and the JSON codec of `TrackingObject`. -/
structure Env where
  TRACKING_DOMAIN : String
  TRACKING_ID_EXPIRATION : String
  marshal : TrackingObject → String
  unmarshal : String → Option TrackingObject

/-- What the outside world answers during one loop iteration or one handler call. -/
structure Fx where
  uuid : String
  now : Nat
  getOk : Bool
  setOk : Bool
  sendErr : Option String

/-- The state threaded through the loop of `sendEmails`. -/
structure LoopState where
  statusMap : GoMap String
  store : Store
  outbox : List Message

/-- What a handler writes to the HTTP response. -/
inductive Response where
  | status (code : Nat)
  | png (code : Nat)
  | error (code : Nat) (msg : String)
  | tracking (code : Nat) (email : String) (count : Int) (lastOpened : Nat)
  | sendStatus (code : Nat) (statusMap : GoMap String)
  deriving DecidableEq

/-- The HTTP status code of a response. -/
def Response.code : Response → Nat
  | .status c => c
  | .png c => c
  | .error c _ => c
  | .tracking c _ _ _ => c
  | .sendStatus c _ => c

/-! ## The program -/

/-- Source `getTrackingExpiration`, the result in nanoseconds. -/
def getTrackingExpiration (env : Env) : Int :=
  let expirationStr := env.TRACKING_ID_EXPIRATION
  let expiration : Int :=
    match Atoi expirationStr with
    | none => 7 * 24 * 60 * 60
    | some n => if expirationStr = "" then 7 * 24 * 60 * 60 else n
  wrapInt64 (expiration * 1000000000)

/-- The call `rdb.Set(ctx, key, value, expiration)`, its result discarded by the callers:
the key is written when the store accepts the command. -/
def rdbSet (ok : Bool) (store : Store) (key value : String) (expiration : Int) : Store :=
  if ok then mapSet store key ⟨value, expiration⟩ else store

/-- The call `rdb.Get(ctx, key).Bytes()`: `none` stands for a non-nil `err`, which the
store gives for an absent key and for a failed command alike. -/
def rdbGet (ok : Bool) (store : Store) (key : String) : Option String :=
  if ok then (mapGet store key).map Entry.value else none

/-- Source `setTrackingId`: the identifier returned and the store afterwards. -/
def setTrackingId (env : Env) (fx : Fx) (store : Store)
    (email trackingId : String) (generateId : Bool) : String × Store :=
  let trackingId := if generateId then fx.uuid else trackingId
  let trackingObject : TrackingObject := ⟨email, 0, fx.now⟩
  let trackingObjectJson := env.marshal trackingObject
  let key := "tracking:" ++ trackingId
  (trackingId, rdbSet fx.setOk store key trackingObjectJson (getTrackingExpiration env))

/-- Source `handleTrackingPixel`. -/
def handleTrackingPixel (env : Env) (fx : Fx) (store : Store) (trackingId : String) :
    Response × Store :=
  let key := "tracking:" ++ trackingId
  match rdbGet fx.getOk store key with
  | none => (.status 404, store)
  | some data =>
    match env.unmarshal data with
    | none => (.status 500, store)
    | some trackingObj =>
      let updated : TrackingObject :=
        ⟨trackingObj.Email, wrapInt64 (trackingObj.Count + 1), fx.now⟩
      (.png 200, rdbSet fx.setOk store key (env.marshal updated) (getTrackingExpiration env))

/-- Source `handleTrackingStatus`. -/
def handleTrackingStatus (env : Env) (fx : Fx) (store : Store) (trackingId : String) :
    Response :=
  let key := "tracking:" ++ trackingId
  match rdbGet fx.getOk store key with
  | none => .error 404 "Tracking ID not found"
  | some data =>
    match env.unmarshal data with
    | none => .error 500 "Internal server error"
    | some trackingObj =>
      .tracking 200 trackingObj.Email trackingObj.Count trackingObj.LastOpened

/-- Inner loop of `setHtml`: one `ReplaceAll` per entry of a parameter set, in range
order; `none` when `v.(string)` panics. -/
def applyParams (template : String) : List (String × JVal) → Option String
  | [] => some template
  | (k, .str v) :: rest =>
    applyParams (ReplaceAll template ("\x7b\x7b " ++ k ++ " \x7d\x7d") v) rest
  | (_, _) :: _ => none

/-- Outer loop of `setHtml`.  The variable `template` is declared outside the loop and
carried from one recipient to the next; `none` when `value.(map[string]interface{})`
panics. -/
def setHtmlLoop (template : String) (emailToTemplateMap : GoMap JVal) :
    List (String × JVal) → Option (GoMap JVal)
  | [] => some emailToTemplateMap
  | (email, .obj members) :: rest =>
    match applyParams template members with
    | none => none
    | some t => setHtmlLoop t (mapSet emailToTemplateMap email (.str t)) rest
  | (_, _) :: _ => none

/-- Source `setHtml`. -/
def setHtml (emailBody : EmailBody) : Option (GoMap JVal) :=
  setHtmlLoop emailBody.HtmlTemplate [] emailBody.Parameters

/-- The `switch receiver.Type` of `sendEmails`: the address header, `none` in the
default case. -/
def addressHeader (t : String) : Option String :=
  if t = "to" then some "To"
  else if t = "cc" then some "Cc"
  else if t = "bcc" then some "Bcc"
  else none

/-- The `fmt.Sprintf` of `sendEmails`. -/
def pixelHtml (domain trackingId : String) : String :=
  "<img src=\"" ++ domain ++ "/pixel/" ++ trackingId ++
    "\" alt=\"\" width=\"1\" height=\"1\" style=\"display:none\"/>"

/-- One iteration of the loop of `sendEmails`; `none` when `template.(string)` panics. -/
def sendStep (env : Env) (sender subject : String) (emailToTemplateMap : GoMap JVal)
    (fx : Fx) (st : LoopState) (receiver : Receiver) : Option LoopState :=
  match addressHeader receiver.Type_ with
  | none =>
    some { st with
      statusMap := mapSet st.statusMap receiver.Email "Failed: invalid recipient type" }
  | some header =>
    let tracked : String × Store :=
      if receiver.WantToTrack then
        setTrackingId env fx st.store receiver.Email receiver.TrackingId true
      else (receiver.TrackingId, st.store)
    match mapGet emailToTemplateMap receiver.Email with
    | none =>
      some { statusMap :=
               mapSet st.statusMap receiver.Email "Failed: no template found for recipient"
             store := tracked.2
             outbox := st.outbox }
    | some (.str template) =>
      let pixel := pixelHtml env.TRACKING_DOMAIN tracked.1
      let body := Replace template "</body>" (pixel ++ "</body>") 1
      let m : Message := ⟨sender, subject, header, receiver.Email, body⟩
      let outcome : String :=
        match fx.sendErr with
        | some err => "Failed:tracking_id:" ++ tracked.1 ++ " error:" ++ err
        | none => "Success:tracking_id:" ++ tracked.1
      some { statusMap := mapSet st.statusMap receiver.Email outcome
             store := tracked.2
             outbox := st.outbox ++ [m] }
    | some _ => none

/-- The loop of `sendEmails`; iteration `i` uses `fx i`. -/
def sendLoop (env : Env) (sender subject : String) (emailToTemplateMap : GoMap JVal)
    (fx : Nat → Fx) : Nat → List Receiver → LoopState → Option LoopState
  | _, [], st => some st
  | i, receiver :: rest, st =>
    match sendStep env sender subject emailToTemplateMap (fx i) st receiver with
    | none => none
    | some st1 => sendLoop env sender subject emailToTemplateMap fx (i + 1) rest st1

/-- Source `sendEmails`, run on a given store: the final loop state holds the status map
returned, the store and the messages handed to the transport. -/
def sendEmails (env : Env) (fx : Nat → Fx) (store : Store)
    (recipients : Recipients) (emailBody : EmailBody) : Option LoopState :=
  match setHtml emailBody with
  | none => none
  | some emailToTemplateMap =>
    sendLoop env recipients.From emailBody.Subject emailToTemplateMap fx 0
      recipients.Receivers ⟨[], store, []⟩

/-- Source `handleEmailRequest`: `decoded` is the result of `c.BindJSON`; `none` as the
result stands for a panic below the handler. -/
def handleEmailRequest (env : Env) (fx : Nat → Fx) (store : Store)
    (decoded : Option EmailTrackerRequest) : Option (Response × Store) :=
  match decoded with
  | none => some (.error 400 "Invalid request", store)
  | some emailTrackerRequest =>
    match sendEmails env fx store emailTrackerRequest.Recipients
        emailTrackerRequest.EmailBody with
    | none => none
    | some st => some (.sendStatus 200 st.statusMap, st.store)

/-! ## Sample data used in the examples -/

/-- Splits a character list at the first `sep`. -/
def splitAtSep (sep : Char) : List Char → Option (List Char × List Char)
  | [] => none
  | c :: cs =>
    if c = sep then some ([], cs)
    else (splitAtSep sep cs).map fun p => (c :: p.1, p.2)

/-- A sample encoder of tracking records: count, timestamp and email separated by blanks. -/
def sampleMarshal (t : TrackingObject) : String :=
  toString t.Count ++ " " ++ toString t.LastOpened ++ " " ++ t.Email

/-- The decoder that goes with `sampleMarshal`. -/
def sampleUnmarshal (data : String) : Option TrackingObject :=
  match splitAtSep ' ' data.data with
  | none => none
  | some (a, rest) =>
    match splitAtSep ' ' rest with
    | none => none
    | some (b, e) =>
      match Atoi ⟨a⟩, Atoi ⟨b⟩ with
      | some c, some l => some ⟨⟨e⟩, c, l.toNat⟩
      | _, _ => none

/-- A sample configuration: tracking domain set, expiration unset. -/
def sampleEnv : Env := ⟨"https://t.example", "", sampleMarshal, sampleUnmarshal⟩

/-- A world in which the store and the transport accept everything. -/
def fxOk (i : Nat) : Fx := ⟨"id-" ++ toString i, 1000 + i, true, true, none⟩

/-- A world in which the store rejects every write. -/
def fxStoreDown (i : Nat) : Fx := ⟨"id-" ++ toString i, 1000 + i, true, false, none⟩

/-! ## Predicates used in the statements -/

/-- Whether a JSON value is a string. -/
def isStr : JVal → Bool
  | .str _ => true
  | _ => false

/-- Whether a JSON value is an object all of whose values are strings. -/
def isStringSet : JVal → Bool
  | .obj members => members.all fun q => isStr q.2
  | _ => false

/-- Whether every parameter set of the request is an object of strings. -/
def stringValued (params : GoMap JVal) : Bool := params.all fun p => isStringSet p.2

/-- Whether every value of a template map is a string. -/
def AllStr (m : GoMap JVal) : Prop := ∀ p ∈ m, isStr p.2 = true

/-! ## Sample requests -/

/-- Two receivers with valid types, the same address and their own identifiers. -/
def dupRecipients : Recipients :=
  ⟨[⟨"ann@x.io", "first", false, "to"⟩, ⟨"ann@x.io", "second", false, "cc"⟩],
    "noreply@x.io"⟩

/-- A body whose only parameter set is the empty one of `ann@x.io`. -/
def plainBody : EmailBody :=
  ⟨"<body>Hi</body>", "Hello", [("ann@x.io", .obj [])]⟩

/-- One tracked receiver of type `to` and one receiver of the unknown type `dm`. -/
def mixedRecipients : Recipients :=
  ⟨[⟨"ann@x.io", "", true, "to"⟩, ⟨"bob@x.io", "", true, "dm"⟩], "noreply@x.io"⟩

/-- A body with one placeholder and a parameter set for `ann@x.io`. -/
def namedBody : EmailBody :=
  ⟨"<body>Hi \x7b\x7b name \x7d\x7d</body>", "Hello",
    [("ann@x.io", .obj [("name", .str "Ann")])]⟩

/-- The sample configuration with `TRACKING_ID_EXPIRATION` set to `s`. -/
def envWithExpiration (s : String) : Env := ⟨"https://t.example", s, sampleMarshal, sampleUnmarshal⟩

/-- One tracked receiver of type `to`. -/
def trackedRecipients : Recipients :=
  ⟨[⟨"ann@x.io", "", true, "to"⟩], "noreply@x.io"⟩

/-- One receiver of type `to` that does not ask for tracking. -/
def untrackedRecipients : Recipients :=
  ⟨[⟨"ann@x.io", "", false, "to"⟩], "noreply@x.io"⟩

/-- A store whose only record has the largest count a Go `int` holds. -/
def fullCountStore : Store :=
  [("tracking:id-0", ⟨"9223372036854775807 1000 ann@x.io", 604800000000000⟩)]

/-- A store with one record opened three times and about to expire. -/
def openedStore : Store :=
  [("tracking:id-0", ⟨"3 1000 ann@x.io", 5⟩), ("tracking:id-1", ⟨"0 1001 bob@x.io", 7⟩)]

/-- The part of a loop state that the caller and the transport see. -/
def LoopState.visible (st : LoopState) : GoMap String × List Message :=
  (st.statusMap, st.outbox)

/-- Two receivers with a parameter set each, both naming the placeholder `name`;
`range` visits `ann@x.io` first. -/
def twoNamesBody : EmailBody :=
  ⟨"Hi \x7b\x7b name \x7d\x7d", "Hello",
    [("ann@x.io", .obj [("name", .str "Ann")]), ("bob@x.io", .obj [("name", .str "Bob")])]⟩

/-- The same request, `range` visiting `bob@x.io` first. -/
def twoNamesBodySwapped : EmailBody :=
  ⟨"Hi \x7b\x7b name \x7d\x7d", "Hello",
    [("bob@x.io", .obj [("name", .str "Bob")]), ("ann@x.io", .obj [("name", .str "Ann")])]⟩

/-- A request in which `bob@x.io` has the empty parameter set. -/
def emptySetBody : EmailBody :=
  ⟨"Hi \x7b\x7b name \x7d\x7d", "Hello",
    [("ann@x.io", .obj [("name", .str "Ann")]), ("bob@x.io", .obj [])]⟩

/-- A parameter set whose value is a JSON number. -/
def numericBody : EmailBody :=
  ⟨"Hi \x7b\x7b age \x7d\x7d", "Hello", [("ann@x.io", .obj [("age", .num "42")])]⟩

/-- A parameter set that is a JSON string instead of an object. -/
def scalarBody : EmailBody :=
  ⟨"Hi", "Hello", [("ann@x.io", .str "Ann")]⟩

/-- The body `setHtml` stores for `email`, when it returns and has one. -/
def renderedFor (emailBody : EmailBody) (email : String) : Option String :=
  match setHtml emailBody with
  | none => none
  | some m =>
    match mapGet m email with
    | some (.str t) => some t
    | _ => none

/-- The loop states `s1` and `s2` have the same store and the same messages sent, and the
same status under every address but `e`. -/
@[reducible] def AgreeOff (e : String) (s1 s2 : LoopState) : Prop :=
  s1.store = s2.store ∧ s1.outbox = s2.outbox ∧
    ∀ k, k ≠ e → mapGet s1.statusMap k = mapGet s2.statusMap k

/-- The answers of the outside world with the one of iteration `k` left out: what the
loop meets when the receiver at position `k` is taken off the list. -/
def skipAt (k : Nat) (fx : Nat → Fx) (i : Nat) : Fx :=
  if i < k then fx i else fx (i + 1)

/-- A receiver of the unknown type `dm` followed by a `to` receiver with the same
address. -/
def shadowedRecipients : Recipients :=
  ⟨[⟨"ann@x.io", "", false, "dm"⟩, ⟨"ann@x.io", "", false, "to"⟩], "noreply@x.io"⟩

/-- One receiver of the unknown type `dm`. -/
def dmRecipients : Recipients :=
  ⟨[⟨"bob@x.io", "", true, "dm"⟩], "noreply@x.io"⟩

/-! ## Maps: basic facts -/

theorem mapGet_mapSet_self {V : Type} (m : GoMap V) (k : String) (v : V) :
    mapGet (mapSet m k v) k = some v := by
  induction m with
  | nil => simp [mapSet, mapGet]
  | cons p rest ih =>
    obtain ⟨a, b⟩ := p
    by_cases h : a = k
    · simp [mapSet, mapGet, h]
    · simp [mapSet, mapGet, h, ih]

theorem mapGet_mapSet_ne {V : Type} (m : GoMap V) (k key : String) (v : V) (h : k ≠ key) :
    mapGet (mapSet m k v) key = mapGet m key := by
  induction m with
  | nil => simp [mapSet, mapGet, h]
  | cons p rest ih =>
    obtain ⟨a, b⟩ := p
    by_cases h1 : a = k
    · subst h1
      simp [mapSet, mapGet, h]
    · by_cases h2 : a = key
      · subst h2
        simp [mapSet, mapGet, h1]
      · simp [mapSet, mapGet, h1, h2, ih]

theorem mem_mapKeys_mapSet {V : Type} (m : GoMap V) (k e : String) (v : V) :
    e ∈ mapKeys (mapSet m k v) ↔ e = k ∨ e ∈ mapKeys m := by
  induction m with
  | nil => simp [mapSet, mapKeys]
  | cons p rest ih =>
    obtain ⟨a, b⟩ := p
    by_cases h : a = k
    · subst h
      simp [mapSet, mapKeys]
    · have ih1 : e ∈ List.map Prod.fst (mapSet rest k v) ↔ e = k ∨ e ∈ List.map Prod.fst rest := ih
      simp only [mapSet, h, if_false, mapKeys, List.map_cons, List.mem_cons, ih1]
      tauto

theorem nodup_mapKeys_mapSet {V : Type} (m : GoMap V) (k : String) (v : V)
    (h : (mapKeys m).Nodup) : (mapKeys (mapSet m k v)).Nodup := by
  induction m with
  | nil => simp [mapSet, mapKeys]
  | cons p rest ih =>
    obtain ⟨a, b⟩ := p
    have h1 : a ∉ mapKeys rest ∧ (mapKeys rest).Nodup := by
      simpa [mapKeys] using h
    by_cases hk : a = k
    · subst hk
      simpa [mapSet, mapKeys] using h
    · have h2 : a ∉ mapKeys (mapSet rest k v) := by
        rw [mem_mapKeys_mapSet]
        rintro (h3 | h3)
        · exact hk h3
        · exact h1.1 h3
      have h3 := ih h1.2
      simp only [mapSet, hk, if_false]
      exact List.nodup_cons.mpr ⟨h2, h3⟩

theorem mapGet_ne_none_iff {V : Type} (m : GoMap V) (k : String) :
    mapGet m k ≠ none ↔ k ∈ mapKeys m := by
  induction m with
  | nil => simp [mapGet, mapKeys]
  | cons p rest ih =>
    obtain ⟨a, b⟩ := p
    have ih1 : mapGet rest k ≠ none ↔ k ∈ List.map Prod.fst rest := ih
    by_cases h : a = k
    · simp [mapGet, mapKeys, h]
    · have h1 : ¬ k = a := fun e => h e.symm
      simp only [mapGet, h, if_false, mapKeys, List.map_cons, List.mem_cons, h1, false_or]
      exact ih1

theorem mapGet_mem {V : Type} (m : GoMap V) (k : String) (v : V)
    (h : mapGet m k = some v) : (k, v) ∈ m := by
  induction m with
  | nil => simp [mapGet] at h
  | cons p rest ih =>
    obtain ⟨a, b⟩ := p
    by_cases h1 : a = k
    · simp [mapGet, h1] at h
      simp [h1, h]
    · simp [mapGet, h1] at h
      exact List.mem_cons_of_mem _ (ih h)

theorem mem_mapSet {V : Type} (m : GoMap V) (k : String) (v : V) (p : String × V)
    (h : p ∈ mapSet m k v) : p = (k, v) ∨ p ∈ m := by
  induction m with
  | nil => simpa [mapSet] using h
  | cons q rest ih =>
    obtain ⟨a, b⟩ := q
    by_cases h1 : a = k
    · simp [mapSet, h1] at h
      rcases h with h | h
      · exact Or.inl h
      · exact Or.inr (List.mem_cons_of_mem _ h)
    · simp only [mapSet, h1, if_false, List.mem_cons] at h
      rcases h with h | h
      · exact Or.inr (by simp [h])
      · rcases ih h with h2 | h2
        · exact Or.inl h2
        · exact Or.inr (List.mem_cons_of_mem _ h2)

/-! ## The template map holds strings only -/

theorem allStr_mapSet (m : GoMap JVal) (k t : String) (h : AllStr m) :
    AllStr (mapSet m k (.str t)) := by
  intro p hp
  rcases mem_mapSet m k (.str t) p hp with h1 | h1
  · subst h1
    rfl
  · exact h p h1

theorem setHtmlLoop_allStr (params : List (String × JVal)) :
    ∀ (template : String) (m out : GoMap JVal), AllStr m →
      setHtmlLoop template m params = some out → AllStr out := by
  induction params with
  | nil =>
    intro template m out hm h
    simp only [setHtmlLoop, Option.some.injEq] at h
    subst h
    exact hm
  | cons p rest ih =>
    intro template m out hm h
    obtain ⟨email, value⟩ := p
    cases value with
    | obj members =>
      simp only [setHtmlLoop] at h
      cases happ : applyParams template members with
      | none => simp [happ] at h
      | some t =>
        simp only [happ] at h
        exact ih t _ out (allStr_mapSet m email t hm) h
    | null => simp [setHtmlLoop] at h
    | bool b => simp [setHtmlLoop] at h
    | num l => simp [setHtmlLoop] at h
    | str s => simp [setHtmlLoop] at h
    | arr xs => simp [setHtmlLoop] at h

theorem setHtml_allStr (emailBody : EmailBody) (out : GoMap JVal)
    (h : setHtml emailBody = some out) : AllStr out :=
  setHtmlLoop_allStr emailBody.Parameters emailBody.HtmlTemplate [] out
    (fun _ hp => by simp at hp) h

theorem applyParams_isSome (members : List (String × JVal)) :
    ∀ template : String, (members.all fun q => isStr q.2) = true →
      ∃ t, applyParams template members = some t := by
  induction members with
  | nil => intro template _; exact ⟨template, rfl⟩
  | cons q rest ih =>
    intro template h
    obtain ⟨k, v⟩ := q
    simp only [List.all_cons, Bool.and_eq_true] at h
    cases v with
    | str s =>
      simp only [applyParams]
      exact ih _ h.2
    | null => simp [isStr] at h
    | bool b => simp [isStr] at h
    | num l => simp [isStr] at h
    | arr xs => simp [isStr] at h
    | obj ms => simp [isStr] at h

theorem setHtmlLoop_isSome (params : List (String × JVal)) :
    ∀ (template : String) (m : GoMap JVal), stringValued params = true →
      ∃ out, setHtmlLoop template m params = some out := by
  induction params with
  | nil => intro template m _; exact ⟨m, rfl⟩
  | cons p rest ih =>
    intro template m h
    obtain ⟨email, value⟩ := p
    simp only [stringValued, List.all_cons, Bool.and_eq_true] at h
    cases value with
    | obj members =>
      obtain ⟨t, ht⟩ := applyParams_isSome members template (by simpa [isStringSet] using h.1)
      simp only [setHtmlLoop, ht]
      exact ih t _ h.2
    | null => simp [isStringSet] at h
    | bool b => simp [isStringSet] at h
    | num l => simp [isStringSet] at h
    | str s => simp [isStringSet] at h
    | arr xs => simp [isStringSet] at h

/-! ## The loop of `sendEmails` writes one status per iteration -/

theorem sendStep_status (env : Env) (sender subject : String) (tmap : GoMap JVal)
    (fx : Fx) (st : LoopState) (r : Receiver) (h : AllStr tmap) :
    ∃ st1 outcome, sendStep env sender subject tmap fx st r = some st1 ∧
      st1.statusMap = mapSet st.statusMap r.Email outcome := by
  unfold sendStep
  cases hh : addressHeader r.Type_ with
  | none => exact ⟨_, _, rfl, rfl⟩
  | some header =>
    cases hg : mapGet tmap r.Email with
    | none => exact ⟨_, _, rfl, rfl⟩
    | some v =>
      have hv := h _ (mapGet_mem tmap r.Email v hg)
      cases v with
      | str t => exact ⟨_, _, rfl, rfl⟩
      | null => simp [isStr] at hv
      | bool b => simp [isStr] at hv
      | num l => simp [isStr] at hv
      | arr xs => simp [isStr] at hv
      | obj ms => simp [isStr] at hv

theorem sendLoop_keys (env : Env) (sender subject : String) (tmap : GoMap JVal)
    (fx : Nat → Fx) (h : AllStr tmap) (rs : List Receiver) :
    ∀ (i : Nat) (st : LoopState), (mapKeys st.statusMap).Nodup →
      ∃ out, sendLoop env sender subject tmap fx i rs st = some out ∧
        (mapKeys out.statusMap).Nodup ∧
        ∀ e, e ∈ mapKeys out.statusMap ↔
          e ∈ mapKeys st.statusMap ∨ e ∈ rs.map Receiver.Email := by
  induction rs with
  | nil =>
    intro i st hnd
    exact ⟨st, rfl, hnd, by simp⟩
  | cons r rest ih =>
    intro i st hnd
    obtain ⟨st1, outcome, hstep, hmap⟩ := sendStep_status env sender subject tmap (fx i) st r h
    have hnd1 : (mapKeys st1.statusMap).Nodup := by
      rw [hmap]
      exact nodup_mapKeys_mapSet _ _ _ hnd
    obtain ⟨out, hout, hnd2, hkeys⟩ := ih (i + 1) st1 hnd1
    refine ⟨out, ?_, hnd2, ?_⟩
    · simp only [sendLoop, hstep]
      exact hout
    · intro e
      rw [hkeys e, hmap, mem_mapKeys_mapSet]
      simp only [List.map_cons, List.mem_cons]
      tauto

/-! ## The loop of `sendEmails`, receiver by receiver -/

theorem sendLoop_append (env : Env) (sender subject : String) (tmap : GoMap JVal)
    (fx : Nat → Fx) (xs ys : List Receiver) :
    ∀ (i : Nat) (st : LoopState),
      sendLoop env sender subject tmap fx i (xs ++ ys) st =
        (sendLoop env sender subject tmap fx i xs st).bind
          (fun s => sendLoop env sender subject tmap fx (i + xs.length) ys s) := by
  induction xs with
  | nil => intro i st; simp [sendLoop]
  | cons x rest ih =>
    intro i st
    simp only [List.cons_append, sendLoop, List.length_cons]
    cases sendStep env sender subject tmap (fx i) st x with
    | none => rfl
    | some s1 =>
      have hi : i + (rest.length + 1) = i + 1 + rest.length := by omega
      simp only [hi]
      exact ih (i + 1) s1

theorem sendLoop_congr (env : Env) (sender subject : String) (tmap : GoMap JVal)
    (fx fx2 : Nat → Fx) (rs : List Receiver) :
    ∀ (i i2 : Nat) (st : LoopState), (∀ j, j < rs.length → fx2 (i2 + j) = fx (i + j)) →
      sendLoop env sender subject tmap fx2 i2 rs st =
        sendLoop env sender subject tmap fx i rs st := by
  induction rs with
  | nil => intro i i2 st _; rfl
  | cons r rest ih =>
    intro i i2 st h
    have h0 : fx2 i2 = fx i := by simpa using h 0 (by simp)
    simp only [sendLoop, h0]
    cases sendStep env sender subject tmap (fx i) st r with
    | none => rfl
    | some s1 =>
      apply ih
      intro j hj
      have hj1 := h (j + 1) (by simp only [List.length_cons]; omega)
      have e1 : i2 + (j + 1) = i2 + 1 + j := by omega
      have e2 : i + (j + 1) = i + 1 + j := by omega
      rw [e1, e2] at hj1
      exact hj1

theorem mapGet_mapSet_agree {V : Type} (m1 m2 : GoMap V) (e x : String) (v : V)
    (h : ∀ k, k ≠ e → mapGet m1 k = mapGet m2 k) :
    ∀ k, k ≠ e → mapGet (mapSet m1 x v) k = mapGet (mapSet m2 x v) k := by
  intro k hk
  by_cases hx : x = k
  · subst hx
    rw [mapGet_mapSet_self, mapGet_mapSet_self]
  · rw [mapGet_mapSet_ne _ _ _ _ hx, mapGet_mapSet_ne _ _ _ _ hx]
    exact h k hk

theorem sendStep_agree (env : Env) (sender subject : String) (tmap : GoMap JVal)
    (f : Fx) (e : String) (s1 s2 : LoopState) (r : Receiver) (h : AgreeOff e s1 s2) :
    (sendStep env sender subject tmap f s1 r = none ∧
      sendStep env sender subject tmap f s2 r = none) ∨
    ∃ a b, sendStep env sender subject tmap f s1 r = some a ∧
      sendStep env sender subject tmap f s2 r = some b ∧ AgreeOff e a b := by
  obtain ⟨m1, store1, out1⟩ := s1
  obtain ⟨m2, store2, out2⟩ := s2
  obtain ⟨hs, ho, hm⟩ := h
  simp only at hs ho hm
  subst hs
  subst ho
  unfold sendStep
  cases addressHeader r.Type_ with
  | none => exact Or.inr ⟨_, _, rfl, rfl, rfl, rfl, mapGet_mapSet_agree _ _ _ _ _ hm⟩
  | some header =>
    cases mapGet tmap r.Email with
    | none => exact Or.inr ⟨_, _, rfl, rfl, rfl, rfl, mapGet_mapSet_agree _ _ _ _ _ hm⟩
    | some v =>
      cases v with
      | str t => exact Or.inr ⟨_, _, rfl, rfl, rfl, rfl, mapGet_mapSet_agree _ _ _ _ _ hm⟩
      | null => exact Or.inl ⟨rfl, rfl⟩
      | bool b => exact Or.inl ⟨rfl, rfl⟩
      | num l => exact Or.inl ⟨rfl, rfl⟩
      | arr xs => exact Or.inl ⟨rfl, rfl⟩
      | obj ms => exact Or.inl ⟨rfl, rfl⟩

theorem sendLoop_agree (env : Env) (sender subject : String) (tmap : GoMap JVal)
    (fx : Nat → Fx) (e : String) (rs : List Receiver) :
    ∀ (i : Nat) (s1 s2 out1 : LoopState), AgreeOff e s1 s2 →
      sendLoop env sender subject tmap fx i rs s1 = some out1 →
      ∃ out2, sendLoop env sender subject tmap fx i rs s2 = some out2 ∧
        AgreeOff e out1 out2 := by
  induction rs with
  | nil =>
    intro i s1 s2 out1 h hout
    simp only [sendLoop, Option.some.injEq] at hout
    subst hout
    exact ⟨s2, rfl, h⟩
  | cons r rest ih =>
    intro i s1 s2 out1 h hout
    rcases sendStep_agree env sender subject tmap (fx i) e s1 s2 r h with
      ⟨h1, _⟩ | ⟨a, b, h1, h2, hab⟩
    · simp [sendLoop, h1] at hout
    · simp only [sendLoop, h1] at hout
      simp only [sendLoop, h2]
      exact ih (i + 1) a b out1 hab hout

theorem sendLoop_keeps (env : Env) (sender subject : String) (tmap : GoMap JVal)
    (fx : Nat → Fx) (h : AllStr tmap) (e : String) (rs : List Receiver) :
    ∀ (i : Nat) (st out : LoopState), e ∉ rs.map Receiver.Email →
      sendLoop env sender subject tmap fx i rs st = some out →
      mapGet out.statusMap e = mapGet st.statusMap e := by
  induction rs with
  | nil =>
    intro i st out _ hout
    simp only [sendLoop, Option.some.injEq] at hout
    subst hout
    rfl
  | cons r rest ih =>
    intro i st out hne hout
    obtain ⟨st1, outcome, hstep, hmap⟩ := sendStep_status env sender subject tmap (fx i) st r h
    simp only [sendLoop, hstep] at hout
    simp only [List.map_cons, List.mem_cons, not_or] at hne
    rw [ih (i + 1) st1 out hne.2 hout, hmap]
    exact mapGet_mapSet_ne _ _ _ _ (fun heq => hne.1 heq.symm)

theorem sendStep_outcome (env : Env) (sender subject : String) (tmap : GoMap JVal)
    (f : Fx) (st : LoopState) (r : Receiver) (h : AllStr tmap) :
    ∃ st1 outcome, sendStep env sender subject tmap f st r = some st1 ∧
      st1.statusMap = mapSet st.statusMap r.Email outcome ∧
      (addressHeader r.Type_ = none → outcome = "Failed: invalid recipient type") ∧
      (addressHeader r.Type_ ≠ none → mapGet tmap r.Email = none →
        outcome = "Failed: no template found for recipient") ∧
      (addressHeader r.Type_ ≠ none → mapGet tmap r.Email ≠ none →
        ∀ err, f.sendErr = some err →
          outcome = "Failed:tracking_id:" ++
            (if r.WantToTrack = true then f.uuid else r.TrackingId) ++ " error:" ++ err) ∧
      (addressHeader r.Type_ ≠ none → mapGet tmap r.Email ≠ none → f.sendErr = none →
        outcome = "Success:tracking_id:" ++
          (if r.WantToTrack = true then f.uuid else r.TrackingId)) := by
  unfold sendStep
  cases hh : addressHeader r.Type_ with
  | none => exact ⟨_, _, rfl, rfl, by simp, by simp, by simp, by simp⟩
  | some header =>
    cases hg : mapGet tmap r.Email with
    | none => exact ⟨_, _, rfl, rfl, by simp, by simp, by simp, by simp⟩
    | some v =>
      have hv := h _ (mapGet_mem tmap r.Email v hg)
      cases v with
      | str t =>
        cases he : f.sendErr with
        | none =>
          cases hw : r.WantToTrack <;>
            exact ⟨_, _, rfl, rfl, by simp, by simp, by simp, by simp [setTrackingId]⟩
        | some err =>
          cases hw : r.WantToTrack <;>
            exact ⟨_, _, rfl, rfl, by simp, by simp, by simp [setTrackingId], by simp⟩
      | null => simp [isStr] at hv
      | bool b => simp [isStr] at hv
      | num l => simp [isStr] at hv
      | arr xs => simp [isStr] at hv
      | obj ms => simp [isStr] at hv

theorem renderedFor_eq_none_iff (emailBody : EmailBody) (tmap : GoMap JVal) (e : String)
    (hs : setHtml emailBody = some tmap) (h : AllStr tmap) :
    renderedFor emailBody e = none ↔ mapGet tmap e = none := by
  unfold renderedFor
  rw [hs]
  cases hg : mapGet tmap e with
  | none => simp [hg]
  | some v =>
    have hv := h _ (mapGet_mem tmap e v hg)
    cases v with
    | str t => simp [hg]
    | null => simp [isStr] at hv
    | bool b => simp [isStr] at hv
    | num l => simp [isStr] at hv
    | arr xs => simp [isStr] at hv
    | obj ms => simp [isStr] at hv

/-! ## Claims on the dispatch loop -/

/-- C1 (amended): when every parameter set is an object of strings, `sendEmails` returns a
status map, whatever the receivers' types and whatever the store and the transport answer;
its keys are exactly the receivers' addresses, so the number of entries is the number of
distinct addresses, and it is the number of receivers when the addresses are pairwise
distinct.  The entry of an address is the outcome of the last receiver with that address:
the failure for an unknown type, the failure for a missing template, or the transport's
failure or success with the receiver's tracking identifier. -/
theorem sendEmails_entry_per_address (env : Env) (fx : Nat → Fx) (store : Store)
    (recipients : Recipients) (emailBody : EmailBody)
    (h : stringValued emailBody.Parameters = true) :
    ∃ st, sendEmails env fx store recipients emailBody = some st ∧
      (∀ r ∈ recipients.Receivers, mapGet st.statusMap r.Email ≠ none) ∧
      (∀ e, mapGet st.statusMap e ≠ none → ∃ r ∈ recipients.Receivers, r.Email = e) ∧
      st.statusMap.length = ((recipients.Receivers.map Receiver.Email).dedup).length ∧
      ((recipients.Receivers.map Receiver.Email).Nodup →
        st.statusMap.length = recipients.Receivers.length) ∧
      (∀ (pre post : List Receiver) (r : Receiver),
        recipients.Receivers = pre ++ r :: post → r.Email ∉ post.map Receiver.Email →
        (addressHeader r.Type_ = none →
          mapGet st.statusMap r.Email = some "Failed: invalid recipient type") ∧
        (addressHeader r.Type_ ≠ none → renderedFor emailBody r.Email = none →
          mapGet st.statusMap r.Email = some "Failed: no template found for recipient") ∧
        (addressHeader r.Type_ ≠ none → renderedFor emailBody r.Email ≠ none →
          ∀ err, (fx pre.length).sendErr = some err →
            mapGet st.statusMap r.Email = some ("Failed:tracking_id:" ++
              (if r.WantToTrack = true then (fx pre.length).uuid else r.TrackingId) ++
              " error:" ++ err)) ∧
        (addressHeader r.Type_ ≠ none → renderedFor emailBody r.Email ≠ none →
          (fx pre.length).sendErr = none →
            mapGet st.statusMap r.Email = some ("Success:tracking_id:" ++
              (if r.WantToTrack = true then (fx pre.length).uuid else r.TrackingId)))) := by
  obtain ⟨tmap, htmap⟩ := setHtmlLoop_isSome emailBody.Parameters emailBody.HtmlTemplate [] h
  have hs : setHtml emailBody = some tmap := htmap
  have hall : AllStr tmap := setHtml_allStr emailBody tmap htmap
  obtain ⟨st, hst, hnd, hkeys⟩ :=
    sendLoop_keys env recipients.From emailBody.Subject tmap fx hall recipients.Receivers 0
      ⟨[], store, []⟩ (by simp [mapKeys])
  have hkeys1 : ∀ e, e ∈ mapKeys st.statusMap ↔ e ∈ recipients.Receivers.map Receiver.Email := by
    intro e
    rw [hkeys e]
    simp [mapKeys]
  have hlen : st.statusMap.length =
      ((recipients.Receivers.map Receiver.Email).dedup).length := by
    have h1 : (mapKeys st.statusMap).toFinset =
        (recipients.Receivers.map Receiver.Email).toFinset := by
      ext e
      simp only [List.mem_toFinset]
      exact hkeys1 e
    have h2 : (mapKeys st.statusMap).length = (mapKeys st.statusMap).toFinset.card :=
      (List.toFinset_card_of_nodup hnd).symm
    have h3 : st.statusMap.length = (mapKeys st.statusMap).length := by simp [mapKeys]
    rw [h3, h2, h1, List.card_toFinset]
  refine ⟨st, ?_, ?_, ?_, hlen, ?_, ?_⟩
  · simp only [sendEmails, hs]
    exact hst
  · intro r hr
    rw [mapGet_ne_none_iff, hkeys1]
    exact List.mem_map_of_mem _ hr
  · intro e he
    rw [mapGet_ne_none_iff, hkeys1] at he
    obtain ⟨r, hr, hre⟩ := List.mem_map.mp he
    exact ⟨r, hr, hre⟩
  · intro hnodup
    rw [hlen, List.Nodup.dedup hnodup, List.length_map]
  · intro pre post r hrs hnot
    obtain ⟨sp, hsp, _, _⟩ :=
      sendLoop_keys env recipients.From emailBody.Subject tmap fx hall pre 0
        ⟨[], store, []⟩ (by simp [mapKeys])
    obtain ⟨s1, outcome, hstep, hmap, c1, c2, c3, c4⟩ :=
      sendStep_outcome env recipients.From emailBody.Subject tmap (fx pre.length) sp r hall
    have hrun := hst
    rw [hrs, sendLoop_append, hsp] at hrun
    simp only [Option.bind, Nat.zero_add, sendLoop, hstep] at hrun
    have hfin : mapGet st.statusMap r.Email = some outcome := by
      rw [sendLoop_keeps env recipients.From emailBody.Subject tmap fx hall r.Email post
        (pre.length + 1) s1 st hnot hrun, hmap]
      exact mapGet_mapSet_self _ _ _
    have hren := renderedFor_eq_none_iff emailBody tmap r.Email hs hall
    rw [hfin]
    refine ⟨?_, ?_, ?_, ?_⟩
    · intro a1
      rw [c1 a1]
    · intro a1 a2
      rw [c2 a1 (hren.mp a2)]
    · intro a1 a2 err a3
      rw [c3 a1 (fun hn => a2 (hren.mpr hn)) err a3]
    · intro a1 a2 a3
      rw [c4 a1 (fun hn => a2 (hren.mpr hn)) a3]

/-- C1, witness: the statement applied to two receivers with one address; the map has
one entry, the outcome of the second receiver. -/
theorem sendEmails_entry_per_address_witness :
    stringValued plainBody.Parameters = true ∧
    ∃ st, sendEmails sampleEnv fxOk [] dupRecipients plainBody = some st ∧
      st.statusMap.length = 1 ∧
      mapGet st.statusMap "ann@x.io" = some "Success:tracking_id:second" :=
  ⟨by decide,
    (sendEmails_entry_per_address sampleEnv fxOk [] dupRecipients plainBody (by decide)).elim
      fun st hst =>
        ⟨st, hst.1, hst.2.2.2.1.trans (by decide),
          (hst.2.2.2.2.2 [⟨"ann@x.io", "first", false, "to"⟩] []
            ⟨"ann@x.io", "second", false, "cc"⟩ rfl (by decide)).2.2.2
            (by decide) (by decide) rfl⟩⟩

/-- C1, counterexample: two receivers of valid types `to` and `cc` share one address; the
status map returned has one entry, not two, and it is the outcome of the second. -/
theorem sendEmails_duplicate_address_single_entry :
    (∀ r ∈ dupRecipients.Receivers, addressHeader r.Type_ ≠ none) ∧
    dupRecipients.Receivers.length = 2 ∧
    (sendEmails sampleEnv fxOk [] dupRecipients plainBody).map
      (fun st => st.statusMap) = some [("ann@x.io", "Success:tracking_id:second")] := by
  decide

/-- C3 (amended): let the receiver `r`, at any position of the list, have a type that is
none of `to`, `cc`, `bcc`, and let every parameter set be an object of strings.  The
iteration of `r` writes `Failed: invalid recipient type` under its address and nothing
else, also when `r` asks for tracking.  `sendEmails` returns, with the store and the
messages handed to the transport of the run without `r`, and with the statuses of that
run under every other address; every receiver after `r` has a status; and the status
under the address of `r` is the failure unless a later receiver has the same address.  In
the request with one tracked `to` receiver and one `dm` receiver this gives one success
entry, one failure entry, one message sent and one key in the store. -/
theorem sendEmails_invalid_type (env : Env) (fx : Nat → Fx) (store : Store)
    (sender : String) (pre post : List Receiver) (r : Receiver) (emailBody : EmailBody)
    (htype : r.Type_ ≠ "to" ∧ r.Type_ ≠ "cc" ∧ r.Type_ ≠ "bcc")
    (hparams : stringValued emailBody.Parameters = true) :
    (∀ (subject : String) (tmap : GoMap JVal) (f : Fx) (s : LoopState),
      sendStep env sender subject tmap f s r =
        some ⟨mapSet s.statusMap r.Email "Failed: invalid recipient type",
          s.store, s.outbox⟩) ∧
    (∃ st st2,
      sendEmails env fx store ⟨pre ++ r :: post, sender⟩ emailBody = some st ∧
      sendEmails env (skipAt pre.length fx) store ⟨pre ++ post, sender⟩ emailBody =
        some st2 ∧
      st.outbox = st2.outbox ∧ st.store = st2.store ∧
      (∀ e, e ≠ r.Email → mapGet st.statusMap e = mapGet st2.statusMap e) ∧
      (∀ q ∈ post, mapGet st.statusMap q.Email ≠ none) ∧
      (r.Email ∉ post.map Receiver.Email →
        mapGet st.statusMap r.Email = some "Failed: invalid recipient type")) ∧
    (sendEmails sampleEnv fxOk [] mixedRecipients namedBody).map
      (fun out => (out.statusMap, out.outbox.length, mapKeys out.store)) =
      some ([("ann@x.io", "Success:tracking_id:id-0"),
             ("bob@x.io", "Failed: invalid recipient type")], 1, ["tracking:id-0"]) := by
  have hh : addressHeader r.Type_ = none := by
    simp [addressHeader, htype.1, htype.2.1, htype.2.2]
  have hstep : ∀ (subject : String) (tmap : GoMap JVal) (f : Fx) (s : LoopState),
      sendStep env sender subject tmap f s r =
        some ⟨mapSet s.statusMap r.Email "Failed: invalid recipient type",
          s.store, s.outbox⟩ := by
    intro subject tmap f s
    simp [sendStep, hh]
  refine ⟨hstep, ?_, by decide⟩
  obtain ⟨tmap, htmap⟩ :=
    setHtmlLoop_isSome emailBody.Parameters emailBody.HtmlTemplate [] hparams
  have hs : setHtml emailBody = some tmap := htmap
  have hall : AllStr tmap := setHtml_allStr emailBody tmap htmap
  -- the receivers before `r`
  obtain ⟨sp, hsp, hndp, _⟩ :=
    sendLoop_keys env sender emailBody.Subject tmap fx hall pre 0
      ⟨[], store, []⟩ (by simp [mapKeys])
  -- the receivers after `r`, in the run with `r`
  obtain ⟨st, hpost, _, hkeys⟩ :=
    sendLoop_keys env sender emailBody.Subject tmap fx hall post (pre.length + 1)
      ⟨mapSet sp.statusMap r.Email "Failed: invalid recipient type", sp.store, sp.outbox⟩
      (nodup_mapKeys_mapSet _ _ _ hndp)
  -- the same receivers in the run without `r`
  have hag : AgreeOff r.Email
      ⟨mapSet sp.statusMap r.Email "Failed: invalid recipient type", sp.store, sp.outbox⟩
      sp :=
    ⟨rfl, rfl, fun k hk => mapGet_mapSet_ne _ _ _ _ (fun heq => hk heq.symm)⟩
  obtain ⟨st2, hpost2, hst2⟩ :=
    sendLoop_agree env sender emailBody.Subject tmap fx r.Email post (pre.length + 1)
      _ sp st hag hpost
  have hrun : sendLoop env sender emailBody.Subject tmap fx 0 (pre ++ r :: post)
      ⟨[], store, []⟩ = some st := by
    rw [sendLoop_append, hsp]
    simp only [Option.bind, Nat.zero_add, sendLoop, hstep]
    exact hpost
  have hrun2 : sendLoop env sender emailBody.Subject tmap (skipAt pre.length fx) 0
      (pre ++ post) ⟨[], store, []⟩ = some st2 := by
    have hpre : sendLoop env sender emailBody.Subject tmap (skipAt pre.length fx) 0 pre
        ⟨[], store, []⟩ = some sp := by
      rw [sendLoop_congr env sender emailBody.Subject tmap fx (skipAt pre.length fx) pre 0 0
        ⟨[], store, []⟩ (fun j hj => by simp [skipAt, hj])]
      exact hsp
    rw [sendLoop_append, hpre]
    simp only [Option.bind, Nat.zero_add]
    rw [sendLoop_congr env sender emailBody.Subject tmap fx (skipAt pre.length fx) post
      (pre.length + 1) pre.length sp (fun j _ => by
        have e1 : pre.length + j + 1 = pre.length + 1 + j := by omega
        simp [skipAt, e1])]
    exact hpost2
  refine ⟨st, st2, ?_, ?_, hst2.2.1, hst2.1, hst2.2.2, ?_, ?_⟩
  · simp only [sendEmails, hs]
    exact hrun
  · simp only [sendEmails, hs]
    exact hrun2
  · intro q hq
    rw [mapGet_ne_none_iff, hkeys]
    exact Or.inr (List.mem_map_of_mem _ hq)
  · intro hnot
    rw [sendLoop_keeps env sender emailBody.Subject tmap fx hall r.Email post
      (pre.length + 1) _ st hnot hpost]
    exact mapGet_mapSet_self _ _ _

/-- C3, witness: the `dm` receiver of the sample request, after the tracked `to`
receiver. -/
theorem sendEmails_invalid_type_witness :
    ("dm" ≠ "to" ∧ "dm" ≠ "cc" ∧ "dm" ≠ "bcc") ∧
    stringValued namedBody.Parameters = true ∧
    ∃ st, sendEmails sampleEnv fxOk [] mixedRecipients namedBody = some st ∧
      mapGet st.statusMap "bob@x.io" = some "Failed: invalid recipient type" :=
  ⟨by decide, by decide,
    (sendEmails_invalid_type sampleEnv fxOk [] "noreply@x.io"
      [⟨"ann@x.io", "", true, "to"⟩] [] ⟨"bob@x.io", "", true, "dm"⟩ namedBody
      (by decide) (by decide)).2.1.elim
      fun st hst => hst.elim fun _ h2 => ⟨st, h2.1, h2.2.2.2.2.2.2 (by decide)⟩⟩

/-- C3, counterexample: a `dm` receiver followed by a `to` receiver with the same address
ends with the success of the second under that address and no failure entry; and with a
parameter value that is a JSON number `sendEmails` panics before the loop, so that nothing
is recorded for the `dm` receiver. -/
theorem sendEmails_invalid_type_shadowed :
    (sendEmails sampleEnv fxOk [] shadowedRecipients plainBody).map
      (fun out => out.statusMap) = some [("ann@x.io", "Success:tracking_id:")] ∧
    (sendEmails sampleEnv fxOk [] dmRecipients numericBody).map LoopState.visible = none := by
  decide

/-! ## Claims on the tracking record -/

/-- C7: when the key `tracking:` followed by the identifier is absent from the store,
`handleTrackingPixel` answers 404 and returns the store as it was. -/
theorem handleTrackingPixel_absent (env : Env) (fx : Fx) (store : Store) (trackingId : String)
    (h : mapGet store ("tracking:" ++ trackingId) = none) :
    handleTrackingPixel env fx store trackingId = (.status 404, store) := by
  have hget : rdbGet fx.getOk store ("tracking:" ++ trackingId) = none := by
    unfold rdbGet
    split
    · rw [h]
      rfl
    · rfl
  simp only [handleTrackingPixel, hget]

/-- C7, witness: a pixel request for `id-9` on a store holding only `tracking:id-0`. -/
theorem handleTrackingPixel_absent_witness :
    mapGet ([("tracking:id-0", ⟨"0 1000 ann@x.io", 5⟩)] : Store) ("tracking:" ++ "id-9") = none ∧
    handleTrackingPixel sampleEnv (fxOk 0) [("tracking:id-0", ⟨"0 1000 ann@x.io", 5⟩)] "id-9" =
      (.status 404, [("tracking:id-0", ⟨"0 1000 ann@x.io", 5⟩)]) :=
  ⟨by decide, handleTrackingPixel_absent sampleEnv (fxOk 0) _ "id-9" (by decide)⟩

/-! ## `strconv.Atoi` reads back the decimal text of an integer -/

theorem digitVal_digitChar (k : Nat) (h : k < 10) : digitVal (Nat.digitChar k) = some k := by
  interval_cases k <;> rfl

theorem parseDigits_toDigitsCore (fuel : Nat) :
    ∀ (n : Nat) (ds : List Char), n < fuel →
      ∃ pre, Nat.toDigitsCore 10 fuel n ds = pre ++ ds ∧ pre ≠ [] ∧
        (∀ c ∈ pre, digitVal c ≠ none) ∧
        ∀ rest, parseDigits (pre ++ rest) 0 = parseDigits rest n := by
  induction fuel with
  | zero => intro n ds h; omega
  | succ fuel ih =>
    intro n ds h
    have hd : digitVal (Nat.digitChar (n % 10)) = some (n % 10) :=
      digitVal_digitChar _ (Nat.mod_lt _ (by decide))
    by_cases h0 : n / 10 = 0
    · refine ⟨[Nat.digitChar (n % 10)], ?_, by simp, ?_, ?_⟩
      · simp [Nat.toDigitsCore, h0]
      · intro c hc
        simp only [List.mem_singleton] at hc
        subst hc
        simp [hd]
      · intro rest
        have hn : n % 10 = n := by omega
        rw [hn] at hd
        simp [parseDigits, hd, hn]
    · have hlt : n / 10 < fuel := by omega
      obtain ⟨pre, hpre, _, hdig, hparse⟩ := ih (n / 10) (Nat.digitChar (n % 10) :: ds) hlt
      refine ⟨pre ++ [Nat.digitChar (n % 10)], ?_, by simp, ?_, ?_⟩
      · simp [Nat.toDigitsCore, h0, hpre]
      · intro c hc
        rcases List.mem_append.mp hc with hc | hc
        · exact hdig c hc
        · simp only [List.mem_singleton] at hc
          subst hc
          simp [hd]
      · intro rest
        have hn : n / 10 * 10 + n % 10 = n := by omega
        have h1 := hparse (Nat.digitChar (n % 10) :: rest)
        simp only [List.append_assoc, List.singleton_append]
        rw [h1]
        simp [parseDigits, hd, hn]

theorem parseDigits_repr (n : Nat) :
    ∃ c cs, (Nat.repr n).data = c :: cs ∧ c ≠ '-' ∧ c ≠ '+' ∧
      parseDigits (c :: cs) 0 = some n := by
  obtain ⟨pre, hpre, hne, hdig, hparse⟩ := parseDigits_toDigitsCore (n + 1) n [] (by omega)
  have hdata : (Nat.repr n).data = pre := by
    simp [Nat.repr, Nat.toDigits, hpre, List.asString]
  cases pre with
  | nil => exact absurd rfl hne
  | cons c cs =>
    refine ⟨c, cs, hdata, ?_, ?_, ?_⟩
    · intro hc
      exact hdig c (by simp) (by subst hc; rfl)
    · intro hc
      exact hdig c (by simp) (by subst hc; rfl)
    · have := hparse []
      simpa [parseDigits] using this

theorem Atoi_toString (n : Int) (h : -2 ^ 63 ≤ n ∧ n < 2 ^ 63) : Atoi (toString n) = some n := by
  cases n with
  | ofNat m =>
    obtain ⟨c, cs, hdata, hc1, hc2, hparse⟩ := parseDigits_repr m
    have hs : (toString (Int.ofNat m)).data = c :: cs := hdata
    have hm : m < 2 ^ 63 := by
      have := h.2
      simp only [Int.ofNat_eq_coe] at this
      exact_mod_cast this
    unfold Atoi
    rw [hs]
    simp [hc1, hc2, hparse]
    omega
  | negSucc m =>
    obtain ⟨c, cs, hdata, hc1, hc2, hparse⟩ := parseDigits_repr (m + 1)
    have hs : (toString (Int.negSucc m)).data = '-' :: c :: cs := by
      show ("-" ++ Nat.repr (m + 1)).data = _
      rw [String.data_append, hdata]
      rfl
    have hm : m + 1 ≤ 2 ^ 63 := by
      have := h.1
      rw [Int.negSucc_eq] at this
      have h2 : ((m : Int) + 1) ≤ 2 ^ 63 := by linarith
      exact_mod_cast h2
    unfold Atoi
    rw [hs]
    simp [hparse, Int.negSucc_eq]
    omega

theorem wrapInt64_of_range (x : Int) (h : -2 ^ 63 ≤ x ∧ x < 2 ^ 63) : wrapInt64 x = x := by
  unfold wrapInt64
  omega

/-- C10 (amended): when `TRACKING_ID_EXPIRATION` is the decimal text of an integer `n`
between -9223372036 and 9223372036, or any other text that `Atoi` reads as such an `n`,
the expiration is exactly `n` seconds, which is positive only when `n` is; when the
variable is unset, empty or not accepted by `Atoi`, the expiration is 604800 seconds. -/
theorem getTrackingExpiration_value (env : Env) :
    (∀ n : Int, -9223372036 ≤ n → n ≤ 9223372036 →
        (env.TRACKING_ID_EXPIRATION = toString n ∨
          Atoi env.TRACKING_ID_EXPIRATION = some n) →
        getTrackingExpiration env = n * 1000000000 ∧
          (0 < getTrackingExpiration env ↔ 0 < n)) ∧
    (env.TRACKING_ID_EXPIRATION = "" ∨ Atoi env.TRACKING_ID_EXPIRATION = none →
        getTrackingExpiration env = 604800 * 1000000000) := by
  constructor
  · intro n h1 h2 hs
    have hat : Atoi env.TRACKING_ID_EXPIRATION = some n := by
      rcases hs with hs | hs
      · rw [hs]
        exact Atoi_toString n ⟨by omega, by omega⟩
      · exact hs
    have hne : env.TRACKING_ID_EXPIRATION ≠ "" := by
      intro he
      rw [he] at hat
      have hnone : Atoi "" = none := by decide
      rw [hnone] at hat
      exact Option.noConfusion hat
    have hval : getTrackingExpiration env = n * 1000000000 := by
      simp only [getTrackingExpiration, hat, hne, if_false]
      exact wrapInt64_of_range _ ⟨by omega, by omega⟩
    refine ⟨hval, ?_⟩
    rw [hval]
    constructor <;> intro h <;> omega
  · intro h
    have hd : wrapInt64 (7 * 24 * 60 * 60 * 1000000000) = 604800 * 1000000000 := by decide
    rcases h with h | h
    · cases hat : Atoi env.TRACKING_ID_EXPIRATION with
      | none => simp only [getTrackingExpiration, hat]; exact hd
      | some n => simp only [getTrackingExpiration, hat, h, if_true]; exact hd
    · simp only [getTrackingExpiration, h]
      exact hd

/-- C10, witness: the setting `3600` gives one hour, the unset variable seven days. -/
theorem getTrackingExpiration_value_witness :
    (getTrackingExpiration (envWithExpiration "3600") = 3600 * 1000000000 ∧
      (0 < getTrackingExpiration (envWithExpiration "3600") ↔ (0 : Int) < 3600)) ∧
    getTrackingExpiration (envWithExpiration "") = 604800 * 1000000000 :=
  ⟨(getTrackingExpiration_value (envWithExpiration "3600")).1 3600 (by decide) (by decide)
      (Or.inl (by decide)),
    (getTrackingExpiration_value (envWithExpiration "")).2 (Or.inl rfl)⟩

/-- C10, counterexample: the settings `0` and `-5` are integers, so no default is taken:
the expiration is zero, respectively negative, and not 604800 seconds. -/
theorem getTrackingExpiration_not_positive :
    getTrackingExpiration (envWithExpiration "0") = 0 ∧
    getTrackingExpiration (envWithExpiration "-5") = -5000000000 ∧
    ¬ (0 < getTrackingExpiration (envWithExpiration "0")) ∧
    getTrackingExpiration (envWithExpiration "0") ≠ 604800 * 1000000000 := by
  decide

/-- C6 (amended): when the store answers, the key `tracking:` followed by the identifier
holds a value that decodes to a record `r`, and `r.Count` is below the largest Go `int`,
`handleTrackingPixel` answers 200 and writes under that key the encoding of the record with
the same email, the count `r.Count + 1` and the current clock reading, with the expiration
`getTrackingExpiration` whatever the expiration was before; every other key reads as
before. -/
theorem handleTrackingPixel_existing (env : Env) (fx : Fx) (store : Store)
    (trackingId : String) (entry : Entry) (r : TrackingObject)
    (hup : fx.getOk = true ∧ fx.setOk = true)
    (hget : mapGet store ("tracking:" ++ trackingId) = some entry)
    (hdec : env.unmarshal entry.value = some r)
    (hcount : -2 ^ 63 ≤ r.Count ∧ r.Count < 2 ^ 63 - 1) :
    (handleTrackingPixel env fx store trackingId).1 = .png 200 ∧
    (handleTrackingPixel env fx store trackingId).1.code = 200 ∧
    mapGet (handleTrackingPixel env fx store trackingId).2 ("tracking:" ++ trackingId) =
      some ⟨env.marshal ⟨r.Email, r.Count + 1, fx.now⟩, getTrackingExpiration env⟩ ∧
    ∀ key, key ≠ "tracking:" ++ trackingId →
      mapGet (handleTrackingPixel env fx store trackingId).2 key = mapGet store key := by
  have hrd : rdbGet fx.getOk store ("tracking:" ++ trackingId) = some entry.value := by
    simp [rdbGet, hup.1, hget]
  have hw : wrapInt64 (r.Count + 1) = r.Count + 1 :=
    wrapInt64_of_range _ ⟨by omega, by omega⟩
  have hrun : handleTrackingPixel env fx store trackingId =
      (.png 200, mapSet store ("tracking:" ++ trackingId)
        ⟨env.marshal ⟨r.Email, r.Count + 1, fx.now⟩, getTrackingExpiration env⟩) := by
    simp only [handleTrackingPixel, hrd, hdec, hw, rdbSet, hup.2, if_true]
  rw [hrun]
  refine ⟨rfl, rfl, mapGet_mapSet_self _ _ _, ?_⟩
  intro key hkey
  exact mapGet_mapSet_ne _ _ _ _ (fun e => hkey e.symm)

/-- C6, witness: a pixel request for `id-0` on a store with two records. -/
theorem handleTrackingPixel_existing_witness :
    (handleTrackingPixel sampleEnv (fxOk 7) openedStore "id-0").1 = .png 200 ∧
    mapGet (handleTrackingPixel sampleEnv (fxOk 7) openedStore "id-0").2
        ("tracking:" ++ "id-0") =
      some ⟨sampleEnv.marshal ⟨"ann@x.io", 3 + 1, (fxOk 7).now⟩,
        getTrackingExpiration sampleEnv⟩ :=
  have h := handleTrackingPixel_existing sampleEnv (fxOk 7) openedStore "id-0"
    ⟨"3 1000 ann@x.io", 5⟩ ⟨"ann@x.io", 3, 1000⟩ (by decide) (by decide) (by decide)
    (by decide)
  ⟨h.1, h.2.2.1⟩

/-- C6, counterexample: the record under `tracking:id-0` decodes with the count
`2^63 - 1`; after the pixel request the key holds the count `-2^63`, not `2^63`.  And when
the store rejects the write, the answer is 200 with every key as it was. -/
theorem handleTrackingPixel_count_wraps :
    (mapGet fullCountStore "tracking:id-0").bind (fun e => sampleEnv.unmarshal e.value) =
      some ⟨"ann@x.io", 9223372036854775807, 1000⟩ ∧
    handleTrackingPixel sampleEnv (fxOk 7) fullCountStore "id-0" =
      (.png 200,
        [("tracking:id-0", ⟨"-9223372036854775808 1007 ann@x.io", 604800000000000⟩)]) ∧
    sampleEnv.unmarshal "-9223372036854775808 1007 ann@x.io" =
      some ⟨"ann@x.io", -9223372036854775808, 1007⟩ ∧
    handleTrackingPixel sampleEnv (fxStoreDown 7) openedStore "id-0" =
      (.png 200, openedStore) := by
  decide

/-- C8: when the store accepts the write and answers the read, and the codec decodes the
new record from its encoding, `handleTrackingStatus` on the identifier that
`setTrackingId` returned answers 200 with the count 0 and the email given. -/
theorem setTrackingId_then_status (env : Env) (fx fx2 : Fx) (store : Store)
    (email trackingId : String)
    (hup : fx.setOk = true ∧ fx2.getOk = true)
    (hcodec : env.unmarshal (env.marshal ⟨email, 0, fx.now⟩) = some ⟨email, 0, fx.now⟩) :
    handleTrackingStatus env fx2 (setTrackingId env fx store email trackingId true).2
        (setTrackingId env fx store email trackingId true).1 =
      .tracking 200 email 0 fx.now := by
  have hrd : rdbGet fx2.getOk
      (mapSet store ("tracking:" ++ fx.uuid)
        ⟨env.marshal ⟨email, 0, fx.now⟩, getTrackingExpiration env⟩)
      ("tracking:" ++ fx.uuid) = some (env.marshal ⟨email, 0, fx.now⟩) := by
    simp [rdbGet, hup.2, mapGet_mapSet_self]
  simp only [setTrackingId, rdbSet, hup.1, if_true, handleTrackingStatus, hrd, hcodec]

/-- C8, witness: a record created for `ann@x.io` on the store with two records. -/
theorem setTrackingId_then_status_witness :
    ((fxOk 2).setOk = true ∧ (fxOk 3).getOk = true) ∧
    handleTrackingStatus sampleEnv (fxOk 3)
        (setTrackingId sampleEnv (fxOk 2) openedStore "ann@x.io" "" true).2
        (setTrackingId sampleEnv (fxOk 2) openedStore "ann@x.io" "" true).1 =
      .tracking 200 "ann@x.io" 0 1002 :=
  ⟨by decide,
    setTrackingId_then_status sampleEnv (fxOk 2) (fxOk 3) openedStore "ann@x.io" ""
      (by decide) (by decide)⟩

/-! ## The outcome of a store write is not observed -/

theorem sendStep_visible (env : Env) (sender subject : String) (tmap : GoMap JVal)
    (f f2 : Fx) (st st2 : LoopState) (r : Receiver)
    (hf : f2.uuid = f.uuid ∧ f2.sendErr = f.sendErr) (hst : st2.visible = st.visible) :
    (sendStep env sender subject tmap f2 st2 r).map LoopState.visible =
      (sendStep env sender subject tmap f st r).map LoopState.visible := by
  have hs : st2.statusMap = st.statusMap := congrArg Prod.fst hst
  have ho : st2.outbox = st.outbox := congrArg Prod.snd hst
  unfold sendStep
  cases addressHeader r.Type_ with
  | none => simp [LoopState.visible, hs, ho]
  | some header =>
    cases mapGet tmap r.Email with
    | none => simp [LoopState.visible, hs, ho]
    | some v =>
      cases v with
      | str t =>
        cases r.WantToTrack <;>
          simp [LoopState.visible, setTrackingId, hs, ho, hf.1, hf.2]
      | null => rfl
      | bool b => rfl
      | num l => rfl
      | arr xs => rfl
      | obj ms => rfl

theorem sendLoop_visible (env : Env) (sender subject : String) (tmap : GoMap JVal)
    (fx fx2 : Nat → Fx)
    (hf : ∀ i, (fx2 i).uuid = (fx i).uuid ∧ (fx2 i).sendErr = (fx i).sendErr)
    (rs : List Receiver) :
    ∀ (i : Nat) (st st2 : LoopState), st2.visible = st.visible →
      (sendLoop env sender subject tmap fx2 i rs st2).map LoopState.visible =
        (sendLoop env sender subject tmap fx i rs st).map LoopState.visible := by
  induction rs with
  | nil =>
    intro i st st2 hst
    simp [sendLoop, hst]
  | cons r rest ih =>
    intro i st st2 hst
    have hstep := sendStep_visible env sender subject tmap (fx i) (fx2 i) st st2 r (hf i) hst
    cases h1 : sendStep env sender subject tmap (fx i) st r with
    | none =>
      cases h2 : sendStep env sender subject tmap (fx2 i) st2 r with
      | none => simp [sendLoop, h1, h2]
      | some b => simp [h1, h2] at hstep
    | some a =>
      cases h2 : sendStep env sender subject tmap (fx2 i) st2 r with
      | none => simp [h1, h2] at hstep
      | some b =>
        have hab : b.visible = a.visible := by simpa [h1, h2] using hstep
        simp only [sendLoop, h1, h2]
        exact ih (i + 1) a b hab

/-- C5 (amended): a rejected store write is not reported.  `setTrackingId` returns the
generated identifier and the store as it was, and the status map that `sendEmails`
returns and the messages it hands to the transport are those of a run in which every
write is accepted, the identifiers and the transport being the same. -/
theorem setTrackingId_write_error_ignored (env : Env) (fx fx2 : Nat → Fx) (store : Store)
    (recipients : Recipients) (emailBody : EmailBody)
    (hf : ∀ i, (fx2 i).uuid = (fx i).uuid ∧ (fx2 i).sendErr = (fx i).sendErr) :
    (∀ (f : Fx) (email trackingId : String), f.setOk = false →
      setTrackingId env f store email trackingId true = (f.uuid, store)) ∧
    (sendEmails env fx2 store recipients emailBody).map LoopState.visible =
      (sendEmails env fx store recipients emailBody).map LoopState.visible := by
  constructor
  · intro f email trackingId h
    simp [setTrackingId, rdbSet, h]
  · unfold sendEmails
    cases setHtml emailBody with
    | none => rfl
    | some tmap =>
      exact sendLoop_visible env recipients.From emailBody.Subject tmap fx fx2 hf
        recipients.Receivers 0 ⟨[], store, []⟩ ⟨[], store, []⟩ rfl

/-- C5, witness: the run with the store down against the run with the store up. -/
theorem setTrackingId_write_error_ignored_witness :
    (∀ i, (fxStoreDown i).uuid = (fxOk i).uuid ∧ (fxStoreDown i).sendErr = (fxOk i).sendErr) ∧
    (sendEmails sampleEnv fxStoreDown [] trackedRecipients namedBody).map LoopState.visible =
      (sendEmails sampleEnv fxOk [] trackedRecipients namedBody).map LoopState.visible :=
  ⟨fun _ => ⟨rfl, rfl⟩,
    (setTrackingId_write_error_ignored sampleEnv fxOk fxStoreDown [] trackedRecipients
      namedBody (fun _ => ⟨rfl, rfl⟩)).2⟩

/-- C5, counterexample: the store rejects the write for a tracked receiver;
`setTrackingId` returns `id-0` all the same, the message is sent, the status is
`Success:tracking_id:id-0` and the store holds no record. -/
theorem sendEmails_store_down_reports_success :
    (fxStoreDown 0).setOk = false ∧
    setTrackingId sampleEnv (fxStoreDown 0) [] "ann@x.io" "" true = ("id-0", []) ∧
    (sendEmails sampleEnv fxStoreDown [] trackedRecipients namedBody).map
        (fun out => (out.statusMap, out.outbox.length, out.store)) =
      some ([("ann@x.io", "Success:tracking_id:id-0")], 1, []) := by
  decide

/-! ## Evaluations at the failing inputs -/

/-- C2: with two receivers that both name the placeholder `name`, the receiver visited
second gets the body of the first, in either visiting order, where its own parameters give
`Hi Bob`, respectively `Hi Ann`; and a receiver with the empty parameter set visited after
`ann@x.io` gets `Hi Ann`, not the template. -/
theorem setHtml_carries_template_over :
    renderedFor twoNamesBody "bob@x.io" = some "Hi Ann" ∧
    applyParams twoNamesBody.HtmlTemplate [("name", .str "Bob")] = some "Hi Bob" ∧
    renderedFor twoNamesBodySwapped "ann@x.io" = some "Hi Bob" ∧
    applyParams twoNamesBody.HtmlTemplate [("name", .str "Ann")] = some "Hi Ann" ∧
    renderedFor emptySetBody "bob@x.io" = some "Hi Ann" ∧
    applyParams emptySetBody.HtmlTemplate [] = some "Hi \x7b\x7b name \x7d\x7d" := by
  decide

/-- C4: a receiver that does not ask for tracking has the rendered body
`<body>Hi</body>`; the body handed to the transport carries the image reference, built
with the empty identifier of the request, and no record is written. -/
theorem sendEmails_pixel_without_tracking :
    renderedFor plainBody "ann@x.io" = some "<body>Hi</body>" ∧
    (sendEmails sampleEnv fxOk [] untrackedRecipients plainBody).map
        (fun out => (out.outbox.map Message.Html, out.store)) =
      some (["<body>Hi<img src=\"https://t.example/pixel/\" alt=\"\" width=\"1\" " ++
        "height=\"1\" style=\"display:none\"/></body>"], []) := by
  decide

/-- C9: a request that decodes and whose parameter value is a JSON number, or whose
parameter set is a JSON string, makes `setHtml` panic: the handler writes no response,
with or without receivers. -/
theorem handleEmailRequest_panics :
    handleEmailRequest sampleEnv fxOk [] (some ⟨untrackedRecipients, numericBody⟩) = none ∧
    handleEmailRequest sampleEnv fxOk [] (some ⟨⟨[], "noreply@x.io"⟩, numericBody⟩) = none ∧
    handleEmailRequest sampleEnv fxOk [] (some ⟨untrackedRecipients, scalarBody⟩) = none := by
  decide

end EmailTracker
